import Mathlib

/-!
# Verification of the NL-to-SQL conversational pipeline

Shallow embedding of the NlptoSQL repository: the frontend chat component
(`Chat.handleSubmit`), the API client (`request`, `sendMessage`), the app
shell (`handleChangeSchema`, `handleCreateSession`), and — modelled from the
spec, since the Python backend sources are not in the repository snapshot —
the output parser and the trailing-5-turn context window.
-/

namespace NlpToSql

/-! ## Character-list machinery shared by the parser model -/

/-- The backtick character, written via its code point. -/
def btick : Char := Char.ofNat 96

/-- The three-backtick fence delimiter sequence. -/
def fenceDelim : List Char := [btick, btick, btick]

/-- The opening delimiter of an sql-tagged fenced block. -/
def sqlFenceOpen : List Char := fenceDelim ++ ['s', 'q', 'l']

/-- `startsWith pat l` tests whether `pat` is an initial segment of `l`. -/
def startsWith : List Char → List Char → Bool
  | [], _ => true
  | _ :: _, [] => false
  | p :: ps, c :: cs => p == c && startsWith ps cs

/-- Split a character list at the first occurrence of `pat`:
returns the part before the occurrence and the part after it. -/
def splitFirst (pat : List Char) : List Char → Option (List Char × List Char)
  | [] => if pat.isEmpty then some ([], []) else none
  | c :: rest =>
    if startsWith pat (c :: rest) then
      some ([], (c :: rest).drop pat.length)
    else
      match splitFirst pat rest with
      | some (pre, post) => some (c :: pre, post)
      | none => none

/-- `containsSeq pat l` tests whether `pat` occurs contiguously in `l`. -/
def containsSeq (pat : List Char) : List Char → Bool
  | [] => pat.isEmpty
  | c :: rest => startsWith pat (c :: rest) || containsSeq pat rest

/-- Whitespace test used by trimming. -/
def ws (c : Char) : Bool := c.isWhitespace

/-- Trim whitespace from both ends of a character list. -/
def trim (l : List Char) : List Char :=
  (((l.dropWhile ws).reverse.dropWhile ws)).reverse

/-! ## Output parser, modelled from the spec

Modelled from the spec: the backend `_extract_sql_from_output` in
`backend/app/services/model_service.py` is not part of the source snapshot;
spec §4.3 defines it: scan for the first sql-tagged fenced block and return
its trimmed interior; otherwise the first generic fenced block; otherwise
the whole trimmed input. `explanation` is always null. -/

/-- Result of parsing raw model output (spec §3 `GenerationResult`). -/
structure GenerationResult where
  sql : List Char
  explanation : Option (List Char)
  raw_output : List Char
  deriving DecidableEq, Repr

/-- Interior of the first sql-tagged fenced block, if a complete one exists. -/
def sqlBlock? (raw : List Char) : Option (List Char) :=
  match splitFirst sqlFenceOpen raw with
  | some (_, rest) => (splitFirst fenceDelim rest).map (fun p => p.1)
  | none => none

/-- Interior of the first generic fenced block, if a complete one exists. -/
def genericBlock? (raw : List Char) : Option (List Char) :=
  match splitFirst fenceDelim raw with
  | some (_, rest) => (splitFirst fenceDelim rest).map (fun p => p.1)
  | none => none

/-- Modelled from the spec: extract the SQL text from raw model output
(spec §4.3 algorithm, first-occurrence tie-break, trimmed-interior, with
whole-trimmed-input fallback). -/
def extract_sql_from_output (raw : List Char) : List Char :=
  match sqlBlock? raw with
  | some inner => trim inner
  | none =>
    match genericBlock? raw with
    | some inner => trim inner
    | none => trim raw

/-- Modelled from the spec: `parse(raw_output) -> GenerationResult`
(spec §4.3); total, `explanation` always null, `raw_output` echoed. -/
def parse (raw : List Char) : GenerationResult :=
  { sql := extract_sql_from_output raw, explanation := none, raw_output := raw }

/-- JavaScript `String.prototype.trim`: strip whitespace from both ends. -/
def jsTrim (s : String) : String := String.mk (trim s.toList)

/-! ## API client (`src/frontend/src/api/client.ts`) -/

namespace Client

/-- `Message` record shape from `client.ts`. -/
inductive Role where
  | user
  | assistant
  | system
  deriving DecidableEq, Repr

/-- `ChatResponse` from `client.ts`: the success shape of the
turn-submission operation. -/
structure ChatResponse where
  sql : String
  explanation : Option String
  raw_model_output : String
  deriving DecidableEq, Repr

/-- `Session` record from `client.ts`. -/
structure Session where
  id : Nat
  title : Option String
  schema_id : Option Nat
  created_at : String
  updated_at : String
  deriving DecidableEq, Repr

/-- `Schema` record from `client.ts`. -/
structure Schema where
  id : Nat
  name : String
  description : Option String
  raw_schema : String
  created_at : String
  updated_at : String
  deriving DecidableEq, Repr

/-- The HTTP request assembled by a client call: method, path, and the JSON
body as a list of key/value fields (absent body = `[]`). -/
structure HttpRequest where
  method : String
  path : String
  bodyFields : List (String × String)
  deriving DecidableEq, Repr

/-- `sendMessage(sessionId, content)` from `client.ts`: POST to the
session-scoped messages path with body `JSON.stringify({ content })`. -/
def sendMessage (sessionId : Nat) (content : String) : HttpRequest :=
  { method := "POST"
    path := "/api/sessions/" ++ toString sessionId ++ "/messages"
    bodyFields := [("content", content)] }

/-- A backend HTTP response as seen by the `request` wrapper: `ok` and
`status` from the fetch response, the body as text, and the body parsed as
JSON of the expected type. -/
structure HttpResponse (T : Type) where
  ok : Bool
  status : Nat
  bodyText : String
  json : T

/-- The `request<T>` wrapper from `client.ts`: return the parsed JSON body
when `res.ok`, otherwise throw an `Error` carrying the status code and the
response body text. -/
def request {T : Type} (res : HttpResponse T) : Except String T :=
  if res.ok then
    Except.ok res.json
  else
    Except.error ("Request failed (" ++ toString res.status ++ "): " ++ res.bodyText)

end Client

/-! ## Chat component (`Chat.handleSubmit` and `Composer`) -/

namespace Chat

/-- `UIMessage` from the chat component: a `Message` plus the optional
`isStreaming` flag (unset on the optimistic user message). -/
structure UIMessage where
  id : Nat
  role : Client.Role
  content : String
  created_at : String
  isStreaming : Option Bool := none
  deriving DecidableEq, Repr

/-- The chat component's state hooks: `messages`, `input`, `loading`,
`error`, `lastSql`. -/
structure ChatState where
  messages : List UIMessage
  input : String
  loading : Bool
  error : Option String
  lastSql : Option Client.ChatResponse
  deriving DecidableEq, Repr

/-- Initial hook values of the chat component. -/
def initialChatState : ChatState :=
  { messages := [], input := "", loading := false, error := none, lastSql := none }

/-- A `sendMessage` call issued during a submission, recorded as the pair of
arguments passed to the API client. -/
structure ApiCall where
  sessionId : Nat
  content : String
  deriving DecidableEq, Repr

/-- Environment of one `handleSubmit` run: the two `Date.now()` reads, the
two `toISOString()` reads, and the reduced-motion media query. -/
structure SubmitEnv where
  now1 : Nat
  now2 : Nat
  t1 : String
  t2 : String
  prefersReducedMotion : Bool
  deriving DecidableEq, Repr

/-- Outcome of the awaited `api.sendMessage` call: resolved with a
`ChatResponse`, or rejected with an error message. -/
inductive BackendOutcome where
  | ok (res : Client.ChatResponse)
  | err (msg : String)
  deriving DecidableEq, Repr

/-- The synchronous part of `handleSubmit` before the `await`: clear the
error, capture the trimmed content, clear the input, append the optimistic
user message, and set `loading` to true. -/
def beginSubmit (now1 : Nat) (t1 : String) (st : ChatState) : ChatState :=
  { st with
    error := none
    input := ""
    messages := st.messages ++
      [{ id := now1, role := Client.Role.user, content := jsTrim st.input, created_at := t1 }]
    loading := true }

/-- The resolved branch of `handleSubmit` plus its `finally`: record the
response, append the assistant message with the extracted SQL, clear
`loading`. -/
def settleOk (res : Client.ChatResponse) (now2 : Nat) (t2 : String)
    (prefersReducedMotion : Bool) (st : ChatState) : ChatState :=
  { st with
    lastSql := some res
    messages := st.messages ++
      [{ id := now2 + 1, role := Client.Role.assistant, content := res.sql,
         created_at := t2, isStreaming := some (!prefersReducedMotion) }]
    loading := false }

/-- The rejected branch of `handleSubmit` plus its `finally`: surface the
error message, clear `loading`. -/
def settleErr (msg : String) (st : ChatState) : ChatState :=
  { st with error := some msg, loading := false }

/-- `Chat.handleSubmit`: guard (`!sessionId || !input.trim()`, with the
JavaScript falsiness of `0`), then the pre-await phase, the awaited
`sendMessage` call, and the settle phase. Returns the final state and the
list of `sendMessage` calls issued. -/
def handleSubmit (sessionId : Option Nat) (env : SubmitEnv) (outcome : BackendOutcome)
    (st : ChatState) : ChatState × List ApiCall :=
  match sessionId with
  | none => (st, [])
  | some sid =>
    if sid = 0 then (st, [])
    else if jsTrim st.input = "" then (st, [])
    else
      let content := jsTrim st.input
      let st1 := beginSubmit env.now1 env.t1 st
      match outcome with
      | BackendOutcome.ok res =>
        (settleOk res env.now2 env.t2 env.prefersReducedMotion st1, [⟨sid, content⟩])
      | BackendOutcome.err m => (settleErr m st1, [⟨sid, content⟩])

/-- Role test used to count assistant messages. -/
def isAssistant (m : UIMessage) : Bool :=
  match m.role with
  | Client.Role.assistant => true
  | _ => false

end Chat

/-! ## App shell (`src/frontend/src/AppShell.tsx`) -/

namespace AppShell

/-- The app shell's state hooks plus the state of the mounted `Chat`
component. `Chat` receives only `activeSessionId` as a prop, and its
message-reload effect is keyed on that prop alone. -/
structure AppState where
  ready : Bool
  schemas : List Client.Schema
  sessions : List Client.Session
  activeSessionId : Option Nat
  activeSchemaId : Option Nat
  error : Option String
  chat : Chat.ChatState
  deriving DecidableEq, Repr

/-- `handleChangeSchema`: the handler calls only `setActiveSchemaId`; the
`Chat` component's props are unchanged (`activeSessionId` is untouched), so
its state, including the recorded messages, is not re-fetched or modified. -/
def handleChangeSchema (schemaId : Option Nat) (st : AppState) : AppState :=
  { st with activeSchemaId := schemaId }

/-- `handleCreateSession`: on success, prepend the created session, make it
active, and adopt its `schema_id ?? null` as the active schema; on failure,
record the error message. The session is created from the schema identifier
that was active at call time (passed in as `initialSchemaId` by the
sidebar). -/
def handleCreateSession (result : Except String Client.Session)
    (st : AppState) : AppState :=
  match result with
  | Except.ok session =>
    { st with
      sessions := session :: st.sessions
      activeSessionId := some session.id
      activeSchemaId := session.schema_id }
  | Except.error e => { st with error := some e }

end AppShell

/-! ## Context window, modelled from the spec

Modelled from the spec: the backend `session_service` history retrieval in
`backend/app/services/session_service.py` is not part of the source
snapshot; spec §3 defines the ContextWindow as the trailing K = 5 turns of
the session's ordered history, inclusive of the just-appended user turn,
oldest first. -/

namespace Backend

/-- A persisted turn (spec §3 `Turn`): role-tagged text with ordering
metadata. `created_at` is modelled as a numeric timestamp. -/
structure Turn where
  sequence_id : Nat
  role : Client.Role
  text : String
  created_at : Nat
  deriving DecidableEq, Repr

/-- Modelled from the spec: the trailing `K = 5` turns of a chronologically
ordered history (all of it when shorter), oldest first. -/
def contextWindow (history : List Turn) : List Turn :=
  history.drop (history.length - 5)

end Backend

/-! ## Submission concurrency: the chat view as a transition system

Small-step model of the chat view for the in-flight-request invariant. A
`submit` step is only enabled when the composer controls are enabled: the
textarea and the send button carry `disabled={sessionId == null || loading}`,
a disabled textarea receives no key events and a disabled button no clicks,
so no submit event fires while `loading` is true or no session is selected.
`inFlight` counts `sendMessage` requests that have started and not yet
settled; the session-switch reload effect never touches `loading`. -/

namespace Machine

/-- Chat view state together with the number of unsettled requests. -/
structure MachineState where
  chat : Chat.ChatState
  sessionId : Option Nat
  inFlight : Nat

/-- One UI or network event of the chat view. -/
inductive Step : MachineState → MachineState → Prop where
  | submit (s : MachineState) (sid now1 : Nat) (t1 : String) :
      s.sessionId = some sid → sid ≠ 0 →
      s.chat.loading = false →
      jsTrim s.chat.input ≠ "" →
      Step s { s with chat := Chat.beginSubmit now1 t1 s.chat, inFlight := s.inFlight + 1 }
  | settleOk (s : MachineState) (res : Client.ChatResponse) (now2 : Nat) (t2 : String)
      (rm : Bool) :
      1 ≤ s.inFlight →
      Step s { s with chat := Chat.settleOk res now2 t2 rm s.chat, inFlight := s.inFlight - 1 }
  | settleErr (s : MachineState) (m : String) :
      1 ≤ s.inFlight →
      Step s { s with chat := Chat.settleErr m s.chat, inFlight := s.inFlight - 1 }
  | typeInput (s : MachineState) (v : String) :
      s.sessionId ≠ none → s.chat.loading = false →
      Step s { s with chat := { s.chat with input := v } }
  | selectSession (s : MachineState) (newSid : Option Nat)
      (fetched : List Chat.UIMessage) (newLast : Option Client.ChatResponse) :
      Step s { s with sessionId := newSid,
                      chat := { s.chat with messages := fetched, lastSql := newLast } }

/-- The freshly mounted chat view: initial hooks, no session, nothing in
flight. -/
def init : MachineState :=
  { chat := Chat.initialChatState, sessionId := none, inFlight := 0 }

end Machine

/-! ## Concrete fixtures used by witness theorems -/

/-- Submission environment fixture. -/
def envW : Chat.SubmitEnv :=
  { now1 := 100, now2 := 200, t1 := "t1", t2 := "t2", prefersReducedMotion := false }

/-- Chat state fixture with a non-blank draft question. -/
def stW : Chat.ChatState :=
  { messages := [], input := " show tables ", loading := false, error := none, lastSql := none }

/-- Successful backend response fixture. -/
def resW : Client.ChatResponse :=
  { sql := "SELECT 1;", explanation := none, raw_model_output := "x" }

/-- Chat state fixture with a whitespace-only draft. -/
def stBlankW : Chat.ChatState :=
  { messages := [], input := "   ", loading := false, error := none, lastSql := none }

/-- Failed HTTP response fixture. -/
def resNotFoundW : Client.HttpResponse Nat :=
  { ok := false, status := 404, bodyText := "gone", json := 0 }

/-! ## Lemmas about the fence-scanning machinery -/

theorem startsWith_append_self (p t : List Char) : startsWith p (p ++ t) = true := by
  induction p with
  | nil => rfl
  | cons a ps ih => simp [startsWith, ih]

theorem eq_append_of_startsWith :
    ∀ (p l : List Char), startsWith p l = true → ∃ t, l = p ++ t := by
  intro p
  induction p with
  | nil => exact fun l _ => ⟨l, rfl⟩
  | cons a ps ih =>
    intro l h
    cases l with
    | nil => simp [startsWith] at h
    | cons c cs =>
      simp only [startsWith, Bool.and_eq_true, beq_iff_eq] at h
      obtain ⟨t, ht⟩ := ih cs h.2
      exact ⟨t, by simp [h.1, ht]⟩

theorem splitFirst_of_startsWith (p l : List Char) (h : startsWith p l = true) :
    splitFirst p l = some ([], l.drop p.length) := by
  cases l with
  | nil =>
    cases p with
    | nil => rfl
    | cons a ps => simp [startsWith] at h
  | cons c rest => simp [splitFirst, h]

theorem splitFirst_append_self (p t : List Char) : splitFirst p (p ++ t) = some ([], t) := by
  rw [splitFirst_of_startsWith p (p ++ t) (startsWith_append_self p t), List.drop_left]

theorem splitFirst_eq_append :
    ∀ (l a b : List Char) (p : List Char), splitFirst p l = some (a, b) → l = a ++ p ++ b := by
  intro l
  induction l with
  | nil =>
    intro a b p h
    by_cases hp : p.isEmpty
    · have hp' : p = [] := by simpa [List.isEmpty_iff] using hp
      simp only [splitFirst, hp, if_true, Option.some.injEq, Prod.mk.injEq] at h
      obtain ⟨ha, hb⟩ := h
      rw [← ha, ← hb, hp']
      rfl
    · simp [splitFirst, hp] at h
  | cons c rest ih =>
    intro a b p h
    by_cases hs : startsWith p (c :: rest) = true
    · rw [splitFirst_of_startsWith p (c :: rest) hs] at h
      simp only [Option.some.injEq, Prod.mk.injEq] at h
      obtain ⟨ha, hb⟩ := h
      obtain ⟨t, ht⟩ := eq_append_of_startsWith p (c :: rest) hs
      rw [← ha, ← hb, ht, List.drop_left]
      simp
    · simp only [splitFirst, hs, if_false] at h
      cases hm : splitFirst p rest with
      | none => rw [hm] at h; simp at h
      | some pr =>
        obtain ⟨pre, post⟩ := pr
        rw [hm] at h
        have hr := ih pre post p hm
        simp only [Bool.false_eq_true, if_false, Option.some.injEq, Prod.mk.injEq] at h
        rw [← h.1, ← h.2, hr]
        simp

theorem splitFirst_eq_none_of_not_contains (p l : List Char)
    (h : containsSeq p l = false) : splitFirst p l = none := by
  induction l with
  | nil =>
    simp only [containsSeq] at h
    simp [splitFirst, h]
  | cons c rest ih =>
    simp only [containsSeq, Bool.or_eq_false_iff] at h
    simp [splitFirst, h.1, ih h.2]

theorem containsSeq_of_eq_append (p a b l : List Char) (h : l = a ++ p ++ b) :
    containsSeq p l = true := by
  subst h
  induction a with
  | nil =>
    cases p with
    | nil => cases b <;> simp [containsSeq, startsWith]
    | cons q qs =>
      simp only [List.nil_append, List.cons_append, containsSeq]
      have : startsWith (q :: qs) (q :: (qs ++ b)) = true := by
        simpa using startsWith_append_self (q :: qs) b
      simp [this]
  | cons x a' ih =>
    simp only [List.cons_append, containsSeq, Bool.or_eq_true]
    exact Or.inr (by simpa [List.append_assoc] using ih)

theorem startsWith_fence_nl (l : List Char) : startsWith fenceDelim ('\n' :: l) = false := by
  simp [fenceDelim, startsWith, show (btick == '\n') = false from by decide]

theorem startsWith_fence_cons3 (c d e : Char) (l : List Char) :
    startsWith fenceDelim (c :: d :: e :: l)
      = ((btick == c) && ((btick == d) && (btick == e))) := by
  simp [fenceDelim, startsWith]

theorem splitFirst_fence_until_close (s : List Char)
    (h : containsSeq fenceDelim s = false) :
    splitFirst fenceDelim (s ++ '\n' :: fenceDelim) = some (s ++ ['\n'], []) := by
  induction s with
  | nil => decide
  | cons c s' ih =>
    simp only [containsSeq, Bool.or_eq_false_iff] at h
    obtain ⟨h1, h2⟩ := h
    simp only [List.cons_append]
    have hS : startsWith fenceDelim (c :: (s' ++ '\n' :: fenceDelim)) = false := by
      rcases s' with _ | ⟨d, s''⟩
      · simp [fenceDelim, startsWith, show (btick == '\n') = false from by decide]
      rcases s'' with _ | ⟨e, s'''⟩
      · simp [fenceDelim, startsWith, show (btick == '\n') = false from by decide]
      rw [startsWith_fence_cons3 c d e s'''] at h1
      simp only [List.cons_append]
      rw [startsWith_fence_cons3]
      exact h1
    simp [splitFirst, hS, ih h2]

theorem dropWhile_ws_nl (l : List Char) : ('\n' :: l).dropWhile ws = l.dropWhile ws := by
  simp [List.dropWhile_cons, show ws '\n' = true from by decide]

theorem trim_cons_nl (l : List Char) : trim ('\n' :: l) = trim l := by
  simp [trim, dropWhile_ws_nl]

theorem dropWhile_append_of_eq_nil (p : Char → Bool) (l m : List Char)
    (h : l.dropWhile p = []) : (l ++ m).dropWhile p = m.dropWhile p := by
  induction l with
  | nil => rfl
  | cons a l ih =>
    by_cases hp : p a
    · simp only [List.cons_append, List.dropWhile_cons, hp, if_true] at h ⊢
      exact ih h
    · simp [List.dropWhile_cons, hp] at h

theorem dropWhile_append_of_ne_nil (p : Char → Bool) (l m : List Char)
    (h : l.dropWhile p ≠ []) : (l ++ m).dropWhile p = l.dropWhile p ++ m := by
  induction l with
  | nil => simp at h
  | cons a l ih =>
    by_cases hp : p a
    · simp only [List.cons_append, List.dropWhile_cons, hp, if_true] at h ⊢
      exact ih h
    · simp [List.dropWhile_cons, hp]

theorem trim_append_nl (l : List Char) : trim (l ++ ['\n']) = trim l := by
  by_cases h0 : l.dropWhile ws = []
  · have h1 : (l ++ ['\n']).dropWhile ws = [] := by
      rw [dropWhile_append_of_eq_nil ws l ['\n'] h0]
      decide
    simp [trim, h0, h1]
  · rw [trim, dropWhile_append_of_ne_nil ws l ['\n'] h0]
    simp only [List.reverse_append, List.reverse_cons, List.reverse_nil, List.nil_append,
      List.singleton_append, dropWhile_ws_nl]
    rfl

/-! ## Claim theorems -/

/-- C1: if the backend request of a turn submission throws after the user's
question has been appended, the message list still ends with exactly that
user message, no assistant message is added, and the error is surfaced; the
one `sendMessage` call carries the persisted content. -/
theorem C1_failed_generation_preserves_user_turn
    (sid : Nat) (env : Chat.SubmitEnv) (m : String) (st : Chat.ChatState)
    (h0 : sid ≠ 0) (hi : jsTrim st.input ≠ "") :
    (Chat.handleSubmit (some sid) env (Chat.BackendOutcome.err m) st).1.messages
        = st.messages ++
          [{ id := env.now1, role := Client.Role.user, content := jsTrim st.input,
             created_at := env.t1 }] ∧
      (Chat.handleSubmit (some sid) env (Chat.BackendOutcome.err m) st).1.messages.getLast?
        = some { id := env.now1, role := Client.Role.user, content := jsTrim st.input,
                 created_at := env.t1 } ∧
      (Chat.handleSubmit (some sid) env (Chat.BackendOutcome.err m) st).1.messages.filter
          Chat.isAssistant
        = st.messages.filter Chat.isAssistant ∧
      (Chat.handleSubmit (some sid) env (Chat.BackendOutcome.err m) st).1.error = some m ∧
      (Chat.handleSubmit (some sid) env (Chat.BackendOutcome.err m) st).2
        = [{ sessionId := sid, content := jsTrim st.input }] := by
  refine ⟨?_, ?_, ?_, ?_, ?_⟩ <;>
    simp [Chat.handleSubmit, h0, hi, Chat.beginSubmit, Chat.settleErr,
      List.getLast?_concat, List.filter_append, Chat.isAssistant]

/-- Witness for C1 at a concrete submission. -/
theorem C1_witness :
    (1 : Nat) ≠ 0 ∧ jsTrim stW.input ≠ "" ∧
      ((Chat.handleSubmit (some 1) envW (Chat.BackendOutcome.err "boom") stW).1.messages
          = stW.messages ++
            [{ id := envW.now1, role := Client.Role.user, content := jsTrim stW.input,
               created_at := envW.t1 }] ∧
        (Chat.handleSubmit (some 1) envW (Chat.BackendOutcome.err "boom") stW).1.messages.getLast?
          = some { id := envW.now1, role := Client.Role.user, content := jsTrim stW.input,
                   created_at := envW.t1 } ∧
        (Chat.handleSubmit (some 1) envW (Chat.BackendOutcome.err "boom") stW).1.messages.filter
            Chat.isAssistant
          = stW.messages.filter Chat.isAssistant ∧
        (Chat.handleSubmit (some 1) envW (Chat.BackendOutcome.err "boom") stW).1.error
          = some "boom" ∧
        (Chat.handleSubmit (some 1) envW (Chat.BackendOutcome.err "boom") stW).2
          = [{ sessionId := 1, content := jsTrim stW.input }]) :=
  ⟨by decide, by decide,
    C1_failed_generation_preserves_user_turn 1 envW "boom" stW (by decide) (by decide)⟩

/-- C2: a successful turn submission appends exactly two new turns — first
the user turn carrying the trimmed submitted content, then, immediately
after it, the assistant turn carrying the extracted SQL — and issues exactly
one `sendMessage` call. -/
theorem C2_success_appends_user_then_assistant
    (sid : Nat) (env : Chat.SubmitEnv) (res : Client.ChatResponse) (st : Chat.ChatState)
    (h0 : sid ≠ 0) (hi : jsTrim st.input ≠ "") :
    (Chat.handleSubmit (some sid) env (Chat.BackendOutcome.ok res) st).1.messages
        = st.messages ++
          [{ id := env.now1, role := Client.Role.user, content := jsTrim st.input,
             created_at := env.t1 },
           { id := env.now2 + 1, role := Client.Role.assistant, content := res.sql,
             created_at := env.t2, isStreaming := some (!env.prefersReducedMotion) }] ∧
      (Chat.handleSubmit (some sid) env (Chat.BackendOutcome.ok res) st).1.messages.length
        = st.messages.length + 2 ∧
      (Chat.handleSubmit (some sid) env (Chat.BackendOutcome.ok res) st).2
        = [{ sessionId := sid, content := jsTrim st.input }] := by
  refine ⟨?_, ?_, ?_⟩ <;>
    simp [Chat.handleSubmit, h0, hi, Chat.beginSubmit, Chat.settleOk, List.append_assoc]

/-- Witness for C2 at a concrete submission. -/
theorem C2_witness :
    (1 : Nat) ≠ 0 ∧ jsTrim stW.input ≠ "" ∧
      ((Chat.handleSubmit (some 1) envW (Chat.BackendOutcome.ok resW) stW).1.messages
          = stW.messages ++
            [{ id := envW.now1, role := Client.Role.user, content := jsTrim stW.input,
               created_at := envW.t1 },
             { id := envW.now2 + 1, role := Client.Role.assistant, content := resW.sql,
               created_at := envW.t2, isStreaming := some (!envW.prefersReducedMotion) }] ∧
        (Chat.handleSubmit (some 1) envW (Chat.BackendOutcome.ok resW) stW).1.messages.length
          = stW.messages.length + 2 ∧
        (Chat.handleSubmit (some 1) envW (Chat.BackendOutcome.ok resW) stW).2
          = [{ sessionId := 1, content := jsTrim stW.input }]) :=
  ⟨by decide, by decide,
    C2_success_appends_user_then_assistant 1 envW resW stW (by decide) (by decide)⟩

/-- C6: the turn-submission request is a POST to the session-scoped messages
path whose body carries exactly the `content` field, and every successful
response value is a record of `sql`, `explanation` (string or null), and
`raw_model_output`. -/
theorem C6_send_message_wire_contract (sid : Nat) (content : String) :
    (Client.sendMessage sid content).method = "POST" ∧
      (Client.sendMessage sid content).path
        = "/api/sessions/" ++ toString sid ++ "/messages" ∧
      (Client.sendMessage sid content).bodyFields = [("content", content)] ∧
      ∀ r : Client.ChatResponse,
        r = { sql := r.sql, explanation := r.explanation,
              raw_model_output := r.raw_model_output } := by
  refine ⟨rfl, rfl, rfl, fun r => ?_⟩
  cases r
  rfl

/-- C7: a submission with no selected session or with
whitespace-only/empty content is rejected before any mutation: the chat
state is unchanged and no request is issued. -/
theorem C7_empty_input_rejected
    (sessionId : Option Nat) (env : Chat.SubmitEnv) (outcome : Chat.BackendOutcome)
    (st : Chat.ChatState) (h : sessionId = none ∨ jsTrim st.input = "") :
    Chat.handleSubmit sessionId env outcome st = (st, []) := by
  rcases h with h | h
  · subst h; rfl
  · cases sessionId with
    | none => rfl
    | some sid =>
      by_cases h0 : sid = 0 <;> simp [Chat.handleSubmit, h0, h]

/-- Witness for C7 at a whitespace-only draft. -/
theorem C7_witness :
    ((some 1 : Option Nat) = none ∨ jsTrim stBlankW.input = "") ∧
      Chat.handleSubmit (some 1) envW (Chat.BackendOutcome.err "e") stBlankW
        = (stBlankW, []) :=
  ⟨Or.inr (by decide),
    C7_empty_input_rejected (some 1) envW (Chat.BackendOutcome.err "e") stBlankW
      (Or.inr (by decide))⟩

/-- C8: the request wrapper returns the parsed JSON body exactly when the
response status is ok, and otherwise throws an `Error` whose message
contains the status code and the response body text, never returning a
value. -/
theorem C8_request_hard_error_policy (T : Type) (res : Client.HttpResponse T) :
    ((∃ v, Client.request res = Except.ok v) ↔ res.ok = true) ∧
      (res.ok = true → Client.request res = Except.ok res.json) ∧
      (res.ok = false →
        ∃ msg, Client.request res = Except.error msg ∧
          (∃ a b, msg = a ++ toString res.status ++ b) ∧
          (∃ c, msg = c ++ res.bodyText) ∧
          ∀ v, Client.request res ≠ Except.ok v) := by
  refine ⟨⟨?_, ?_⟩, ?_, ?_⟩
  · rintro ⟨v, hv⟩
    cases hok : res.ok with
    | true => rfl
    | false => simp [Client.request, hok] at hv
  · intro h
    exact ⟨res.json, by simp [Client.request, h]⟩
  · intro h
    simp [Client.request, h]
  · intro h
    refine ⟨"Request failed (" ++ toString res.status ++ "): " ++ res.bodyText,
      by simp [Client.request, h],
      ⟨"Request failed (", "): " ++ res.bodyText, by simp [String.append_assoc]⟩,
      ⟨"Request failed (" ++ toString res.status ++ "): ", rfl⟩, ?_⟩
    intro v
    simp [Client.request, h]

/-- Witness for C8 at a concrete failed response. -/
theorem C8_witness :
    ∃ msg,
      Client.request resNotFoundW = Except.error msg ∧
        (∃ a b, msg = a ++ toString resNotFoundW.status ++ b) ∧
        (∃ c, msg = c ++ resNotFoundW.bodyText) ∧
        ∀ v, Client.request resNotFoundW ≠ Except.ok v :=
  (C8_request_hard_error_policy Nat resNotFoundW).2.2 rfl

/-- History fixture of 12 chronologically ordered turns. -/
def h12W : List Backend.Turn :=
  (List.range 12).map (fun i => ⟨i, Client.Role.user, "q", i⟩)

/-- C3: for a history of at least 5 turns the assembled context window is
exactly the trailing 5 turns — it has length 5, the history decomposes as a
prefix followed by the window (so the window is the most recent turns in
their original oldest-first order), and the window ends with the
just-appended last turn of the history. -/
theorem C3_context_window_trailing_five (h : List Backend.Turn) (hh : 5 ≤ h.length) :
    (Backend.contextWindow h).length = 5 ∧
      h = h.take (h.length - 5) ++ Backend.contextWindow h ∧
      (Backend.contextWindow h).getLast? = h.getLast? := by
  have hlen : (Backend.contextWindow h).length = 5 := by
    simp only [Backend.contextWindow, List.length_drop]
    omega
  have hdec : h = h.take (h.length - 5) ++ Backend.contextWindow h :=
    (List.take_append_drop _ _).symm
  refine ⟨hlen, hdec, ?_⟩
  have hne : Backend.contextWindow h ≠ [] := by
    intro e
    rw [e] at hlen
    simp at hlen
  conv_rhs => rw [hdec]
  exact (List.getLast?_append_of_ne_nil _ hne).symm

/-- Witness for C3 at a 12-turn history. -/
theorem C3_witness :
    5 ≤ h12W.length ∧
      ((Backend.contextWindow h12W).length = 5 ∧
        h12W = h12W.take (h12W.length - 5) ++ Backend.contextWindow h12W ∧
        (Backend.contextWindow h12W).getLast? = h12W.getLast?) :=
  ⟨by decide, C3_context_window_trailing_five h12W (by decide)⟩

/-- C10: in every reachable state of the chat view at most one turn
submission is in flight, and the loading flag is true exactly while one is —
so, since a submit step requires the (enabled, hence non-loading) composer,
a second `sendMessage` call can never start before the first settles. -/
theorem C10_at_most_one_submission_in_flight (s : Machine.MachineState)
    (h : Relation.ReflTransGen Machine.Step Machine.init s) :
    s.inFlight ≤ 1 ∧ (s.chat.loading = true ↔ s.inFlight = 1) := by
  induction h with
  | refl => exact ⟨by decide, by decide⟩
  | @tail b c hab hbc ih =>
    obtain ⟨hle, hiff⟩ := ih
    cases hbc with
    | submit sid now1 t1 hsid h0 hload htrim =>
      have h1 : b.inFlight = 0 := by
        rcases Nat.lt_or_ge b.inFlight 1 with hlt | hge
        · omega
        · exfalso
          have h2 : b.inFlight = 1 := by omega
          rw [hload] at hiff
          simp [h2] at hiff
      constructor
      · simp [h1]
      · simp [Chat.beginSubmit, h1]
    | settleOk res now2 t2 rm hge =>
      have h1 : b.inFlight = 1 := by omega
      constructor
      · simp [h1]
      · simp [Chat.settleOk, h1]
    | settleErr m hge =>
      have h1 : b.inFlight = 1 := by omega
      constructor
      · simp [h1]
      · simp [Chat.settleErr, h1]
    | typeInput v hs hload =>
      exact ⟨hle, by simpa using hiff⟩
    | selectSession newSid fetched newLast =>
      exact ⟨hle, by simpa using hiff⟩

/-- Witness for C10 at the initial state. -/
theorem C10_witness :
    Machine.init.inFlight ≤ 1 ∧
      (Machine.init.chat.loading = true ↔ Machine.init.inFlight = 1) :=
  C10_at_most_one_submission_in_flight Machine.init Relation.ReflTransGen.refl

/-- C9: changing the active schema binding updates only the active-schema
identifier; the session list, the active session, the chat state (including
all recorded messages), the schema list, the error banner and readiness are
unchanged, so the change can affect only sessions created afterwards. -/
theorem C9_change_schema_not_retroactive (v : Option Nat) (st : AppShell.AppState) :
    (AppShell.handleChangeSchema v st).activeSchemaId = v ∧
      (AppShell.handleChangeSchema v st).sessions = st.sessions ∧
      (AppShell.handleChangeSchema v st).activeSessionId = st.activeSessionId ∧
      (AppShell.handleChangeSchema v st).chat.messages = st.chat.messages ∧
      (AppShell.handleChangeSchema v st).chat = st.chat ∧
      (AppShell.handleChangeSchema v st).schemas = st.schemas ∧
      (AppShell.handleChangeSchema v st).error = st.error ∧
      (AppShell.handleChangeSchema v st).ready = st.ready :=
  ⟨rfl, rfl, rfl, rfl, rfl, rfl, rfl, rfl⟩

/-- C4: parser round-trip — for any statement not containing the fence
delimiter sequence, parsing the text formed by wrapping it in an sql-tagged
fenced block yields a `GenerationResult` whose `sql` field is the statement
stripped of surrounding whitespace. -/
theorem C4_parser_round_trip (s : List Char) (h : containsSeq fenceDelim s = false) :
    (parse (sqlFenceOpen ++ ['\n'] ++ s ++ ['\n'] ++ fenceDelim)).sql = trim s := by
  have e : sqlFenceOpen ++ ['\n'] ++ s ++ ['\n'] ++ fenceDelim
      = sqlFenceOpen ++ '\n' :: (s ++ '\n' :: fenceDelim) := by
    simp
  rw [e]
  have h1 : splitFirst sqlFenceOpen (sqlFenceOpen ++ '\n' :: (s ++ '\n' :: fenceDelim))
      = some ([], '\n' :: (s ++ '\n' :: fenceDelim)) :=
    splitFirst_append_self sqlFenceOpen ('\n' :: (s ++ '\n' :: fenceDelim))
  have h2 : splitFirst fenceDelim ('\n' :: (s ++ '\n' :: fenceDelim))
      = some ('\n' :: (s ++ ['\n']), []) := by
    have hS := startsWith_fence_nl (s ++ '\n' :: fenceDelim)
    simp [splitFirst, hS, splitFirst_fence_until_close s h]
  have h3 : sqlBlock? (sqlFenceOpen ++ '\n' :: (s ++ '\n' :: fenceDelim))
      = some ('\n' :: (s ++ ['\n'])) := by
    simp [sqlBlock?, h1, h2]
  simp [parse, extract_sql_from_output, h3, trim_cons_nl, trim_append_nl]

/-- Witness for C4 at a concrete SQL statement. -/
theorem C4_witness :
    containsSeq fenceDelim "SELECT 1;".toList = false ∧
      (parse (sqlFenceOpen ++ ['\n'] ++ "SELECT 1;".toList ++ ['\n'] ++ fenceDelim)).sql
        = trim "SELECT 1;".toList :=
  ⟨by decide, C4_parser_round_trip "SELECT 1;".toList (by decide)⟩

/-- C5: the parser is total and never raises — every input yields a
`GenerationResult`; an input with no fenced block at all comes back as its
own trimmed text in `sql`, and the empty input yields `sql = ""` (never
null). -/
theorem C5_parser_total_never_raises :
    (∀ raw : List Char, containsSeq fenceDelim raw = false →
        parse raw = { sql := trim raw, explanation := none, raw_output := raw }) ∧
      parse [] = { sql := [], explanation := none, raw_output := [] } ∧
      (parse "no fences here".toList).sql = "no fences here".toList := by
  refine ⟨?_, by decide, by decide⟩
  intro raw h
  have hsql : splitFirst sqlFenceOpen raw = none := by
    cases hm : splitFirst sqlFenceOpen raw with
    | none => rfl
    | some pr =>
      exfalso
      obtain ⟨a, b⟩ := pr
      have hraw := splitFirst_eq_append raw a b sqlFenceOpen hm
      have hc : containsSeq fenceDelim raw = true := by
        apply containsSeq_of_eq_append fenceDelim a (['s', 'q', 'l'] ++ b)
        rw [hraw]
        simp [sqlFenceOpen, List.append_assoc]
      rw [hc] at h
      cases h
  have hgen : splitFirst fenceDelim raw = none :=
    splitFirst_eq_none_of_not_contains fenceDelim raw h
  simp [parse, extract_sql_from_output, sqlBlock?, genericBlock?, hsql, hgen]

/-- Witness for C5 at a fence-free input. -/
theorem C5_witness :
    containsSeq fenceDelim "no fences here".toList = false ∧
      parse "no fences here".toList
        = { sql := trim "no fences here".toList, explanation := none,
            raw_output := "no fences here".toList } :=
  ⟨by decide, C5_parser_total_never_raises.1 "no fences here".toList (by decide)⟩

end NlpToSql
